import Mathlib

/-!
Verification development for the command dispatch core of `src/bot.ts`
(a Discord music bot). The file shallowly embeds the command registry,
the `interactionCreate` router (structured commands, buttons,
autocomplete, and its catch-based failure containment), the legacy
`messageCreate` text path in both observed variants, and the
`ready`-handler registration synchronizer, and proves the stated
properties about them.
-/

namespace Muse

/-- A guild, as the router observes it. The voice-state query used by the
gate is not part of `bot.ts` (it lives in `utils/channels.js`), so we keep
only what it needs: which user ids are currently in some voice channel of
the guild. -/
structure Guild where
  voiceMembers : List String

/-- Modelled from the spec: `isUserInVoice` (from `utils/channels.js`, not in
`src/`) is, per the spec, true iff the caller is currently present in some
voice channel within the guild. -/
def isUserInVoice (g : Guild) (userId : String) : Bool :=
  g.voiceMembers.contains userId

/-- A guild member, reduced to the only field the router reads:
`member.user.id`. -/
structure Member where
  userId : String

/-- An inbound interaction event, as consumed by the `interactionCreate`
handler. The `is*` flags embed the discord.js kind predicates; the two
`*Fails` flags are environment facts describing whether the recovery
`editReply` / `reply` calls in the catch block would themselves reject
(e.g., the message was deleted). -/
structure Interaction where
  isCommand : Bool
  isChatInputCommand : Bool
  isButton : Bool
  isAutocomplete : Bool
  commandName : String
  customId : String
  guild : Option Guild
  member : Option Member
  editReplyFails : Bool
  replyFails : Bool

/-- `command.requiresVC`: either a plain boolean or a function of the
interaction. A function that throws is embedded as returning
`Except.error`. -/
inductive RequiresVC where
  | flag (b : Bool)
  | dyn (f : Interaction → Except Unit Bool)

/-- Embeds line 74 of `bot.ts`:
`command.requiresVC instanceof Function ? command.requiresVC(interaction) : command.requiresVC`.
A throw from the function propagates (there is no try/catch around it). -/
def resolveRequiresVC (r : RequiresVC) (i : Interaction) : Except Unit Bool :=
  match r with
  | .flag b => .ok b
  | .dyn f => f i

/-- What a hook invocation did, as far as the router can observe afterwards:
whether the interaction got a first reply or a deferred-reply marker, and
whether the hook threw. -/
structure ExecOutcome where
  replied : Bool
  deferred : Bool
  throws : Bool

/-- A command definition as `bot.ts` consumes it. `toJSONOk` records whether
`slashCommand.toJSON()` succeeds; the hooks are optional capability fields.
`legacyThrows` records, per query string, whether the execute hook throws
when invoked through the mock interaction of the legacy text path (whose hook
business logic is an external collaborator; only its fault/no-fault outcome
is observable to the second messageCreate variant). -/
structure Command where
  name : String
  toJSONOk : Bool
  requiresVC : RequiresVC
  handledButtonIds : Option (List String)
  execute : Option (Interaction → ExecOutcome)
  handleButtonInteraction : Option (Interaction → ExecOutcome)
  handleAutocompleteInteraction : Option (Interaction → ExecOutcome)
  legacyThrows : List Char → Bool

/-- discord.js `Collection.get`. -/
def getEntry (m : List (String × Command)) (k : String) : Option Command :=
  match m with
  | [] => none
  | (k₁, v) :: rest => if k₁ = k then some v else getEntry rest k

/-- discord.js `Collection.set`: replace in place if the key exists,
append otherwise. -/
def setEntry (m : List (String × Command)) (k : String) (v : Command) :
    List (String × Command) :=
  match m with
  | [] => [(k, v)]
  | (k₁, v₁) :: rest =>
      if k₁ = k then (k, v) :: rest else (k₁, v₁) :: setEntry rest k v

/-- The two lookup indices held by the bot object
(`commandsByName`, `commandsByButtonId`). -/
structure Registry where
  commandsByName : List (String × Command)
  commandsByButtonId : List (String × Command)

def emptyRegistry : Registry := ⟨[], []⟩

/-- One successful iteration of the load loop (lines 46-54): insert under the
name if present, then under each handled button id. -/
def loadStep (reg : Registry) (c : Command) : Registry :=
  let reg₁ :=
    if c.name ≠ "" then
      { reg with commandsByName := setEntry reg.commandsByName c.name c }
    else reg
  match c.handledButtonIds with
  | some ids =>
      { reg₁ with commandsByButtonId :=
          ids.foldl (fun m id => setEntry m id c) reg₁.commandsByButtonId }
  | none => reg₁

/-- The load loop of `register()` (lines 37-55). The collections are mutated
in place as the loop runs, so the result carries the registry state even
when the loop throws: on the first command whose payload fails to
serialize, the loop stops with the error message of line 43, and every
earlier insertion is still in the registry. -/
def loadCommands : List Command → Registry → Registry × Option String
  | [], reg => (reg, none)
  | c :: rest, reg =>
      if c.toJSONOk then loadCommands rest (loadStep reg c)
      else (reg, some ("Could not serialize /" ++ c.name ++ " to JSON"))

/-- The last command in the list carrying a given name, i.e. what
last-write-wins should retain. -/
def lastWithName : List Command → String → Option Command
  | [], _ => none
  | c :: rest, n =>
      match lastWithName rest n with
      | some c₁ => some c₁
      | none => if c.name = n then some c else none

theorem getEntry_setEntry_self (m : List (String × Command)) (k : String)
    (v : Command) : getEntry (setEntry m k v) k = some v := by
  induction m with
  | nil => simp [setEntry, getEntry]
  | cons p rest ih =>
      obtain ⟨k₁, v₁⟩ := p
      by_cases h : k₁ = k
      · simp [setEntry, h, getEntry]
      · simp [setEntry, h, getEntry, ih]

theorem getEntry_setEntry_other (m : List (String × Command)) (k k₁ : String)
    (v : Command) (h : k₁ ≠ k) :
    getEntry (setEntry m k v) k₁ = getEntry m k₁ := by
  have h₂ : ¬ k = k₁ := fun h₁ => h h₁.symm
  induction m with
  | nil => simp [setEntry, getEntry, h₂]
  | cons p rest ih =>
      obtain ⟨k₂, v₂⟩ := p
      by_cases hk : k₂ = k
      · subst hk
        simp [setEntry, getEntry, h₂]
      · simp [setEntry, hk, getEntry, ih]

/-- `loadStep` touches `commandsByName` only at the name of the loaded command. -/
theorem loadStep_byName (reg : Registry) (c : Command) (n : String)
    (hn : n ≠ "") :
    getEntry (loadStep reg c).commandsByName n =
      if c.name = n then some c else getEntry reg.commandsByName n := by
  unfold loadStep
  by_cases h : c.name = n
  · subst h
    simp [hn]
    cases c.handledButtonIds <;> simp [getEntry_setEntry_self]
  · by_cases h₀ : c.name = ""
    · have h₄ : ¬ ("" = n) := fun e => hn e.symm
      simp [h₀, h, h₄]
      cases c.handledButtonIds <;> simp
    · have h₄ : n ≠ c.name := fun e => h e.symm
      simp [h₀, h]
      cases c.handledButtonIds <;>
        simp [getEntry_setEntry_other _ _ _ _ h₄]

/-- Name-index contents after a fully successful load: the last write wins,
falling back to the pre-existing entry. -/
theorem loadCommands_getEntry (cmds : List Command) (reg : Registry)
    (n : String) (hn : n ≠ "") (h : (loadCommands cmds reg).2 = none) :
    getEntry (loadCommands cmds reg).1.commandsByName n =
      match lastWithName cmds n with
      | some c => some c
      | none => getEntry reg.commandsByName n := by
  induction cmds generalizing reg with
  | nil => simp [loadCommands, lastWithName]
  | cons c rest ih =>
      by_cases hj : c.toJSONOk
      · have hrec : loadCommands (c :: rest) reg =
            loadCommands rest (loadStep reg c) := by
          simp [loadCommands, hj]
        rw [hrec] at h ⊢
        rw [ih (loadStep reg c) h]
        cases hl : lastWithName rest n with
        | some c₁ => simp [lastWithName, hl]
        | none =>
            simp only [lastWithName, hl, loadStep_byName reg c n hn]
            by_cases hcn : c.name = n <;> simp [hcn]
      · exfalso
        simp [loadCommands, hj] at h

/-! ### The interactionCreate router -/

/-- The contents the router can put into a reply or an edit. `errorMsg` from
`utils/error-msg.js` only decorates the text, so replies are identified by
which fixed message they carry. -/
inductive ReplyContent where
  | dmRejection
  | vcRejection
  | genericError
deriving DecidableEq

/-- Observable steps taken by the `interactionCreate` handler on one event. -/
inductive Action where
  | reply (c : ReplyContent) (ephemeral : Bool)
  | editReply (c : ReplyContent)
  | invokeExecute
  | invokeButtonHandler
  | invokeAutocomplete
deriving DecidableEq

/-- The hardcoded exemption list of line 60. -/
def exemptUserIds : List String :=
  ["1215330175563071509", "1207844365838323812", "1217539821740757032"]

/-- Result of running the try block of the handler: the steps taken, whether
it threw, and the replied/deferred state of the interaction as the catch block
would observe it. -/
structure TryResult where
  actions : List Action
  threw : Bool
  replied : Bool
  deferred : Bool
deriving DecidableEq

/-- Line 77, the voice-gate condition:
`requiresVC && interaction.member && !exemptUserIds.includes(id) && !isUserInVoice(guild, user)`. -/
def gateDenies (g : Guild) (rvc : Bool) (member : Option Member) : Bool :=
  rvc && (match member with
    | some m => !(exemptUserIds.contains m.userId) && !(isUserInVoice g m.userId)
    | none => false)

/-- Lines 82-84: call the execute hook if present; record its outcome. -/
def invokeExec (cmd : Command) (i : Interaction) : TryResult :=
  match cmd.execute with
  | none => ⟨[], false, false, false⟩
  | some f =>
      let o := f i
      ⟨[.invokeExecute], o.throws, o.replied, o.deferred⟩

/-- Lines 62-84: the structured-command branch of the try block. -/
def tryCommandBranch (reg : Registry) (i : Interaction) : TryResult :=
  match getEntry reg.commandsByName i.commandName with
  | none => ⟨[], false, false, false⟩
  | some cmd =>
      if !i.isChatInputCommand then ⟨[], false, false, false⟩
      else
        match i.guild with
        | none => ⟨[.reply .dmRejection false], false, true, false⟩
        | some g =>
            match resolveRequiresVC cmd.requiresVC i with
            | .error _ => ⟨[], true, false, false⟩
            | .ok rvc =>
                if gateDenies g rvc i.member then
                  ⟨[.reply .vcRejection true], false, true, false⟩
                else invokeExec cmd i

/-- Lines 85-94: the button branch of the try block. -/
def tryButtonBranch (reg : Registry) (i : Interaction) : TryResult :=
  match getEntry reg.commandsByButtonId i.customId with
  | none => ⟨[], false, false, false⟩
  | some cmd =>
      match cmd.handleButtonInteraction with
      | none => ⟨[], false, false, false⟩
      | some f =>
          let o := f i
          ⟨[.invokeButtonHandler], o.throws, o.replied, o.deferred⟩

/-- Lines 95-104: the autocomplete branch of the try block. -/
def tryAutocompleteBranch (reg : Registry) (i : Interaction) : TryResult :=
  match getEntry reg.commandsByName i.commandName with
  | none => ⟨[], false, false, false⟩
  | some cmd =>
      match cmd.handleAutocompleteInteraction with
      | none => ⟨[], false, false, false⟩
      | some f =>
          let o := f i
          ⟨[.invokeAutocomplete], o.throws, o.replied, o.deferred⟩

/-- The whole try block (lines 59-105). -/
def tryBlock (reg : Registry) (i : Interaction) : TryResult :=
  if i.isCommand then tryCommandBranch reg i
  else if i.isButton then tryButtonBranch reg i
  else if i.isAutocomplete then tryAutocompleteBranch reg i
  else ⟨[], false, false, false⟩

/-- Lines 111-115, the recovery attempt inside the catch block: edit the
existing reply when the interaction was replied to or deferred, otherwise
send a fresh ephemeral error reply; either await can itself reject. -/
def attemptRecovery (i : Interaction) (replied deferred : Bool) :
    Except Unit (List Action) :=
  if (i.isCommand || i.isButton) && (replied || deferred) then
    if i.editReplyFails then .error () else .ok [.editReply .genericError]
  else if i.isCommand || i.isButton then
    if i.replyFails then .error () else .ok [.reply .genericError true]
  else .ok []

/-- Lines 106-117: the catch block. The inner `try { ... } catch {}` swallows
a failing recovery attempt, so the catch block always returns. -/
def catchBlock (i : Interaction) (replied deferred : Bool) : List Action :=
  match attemptRecovery i replied deferred with
  | .ok as => as
  | .error _ => []

/-- The whole `interactionCreate` handler (lines 58-118): run the try block;
if it threw, run the catch block on the current
replied/deferred state. Total by construction — no fault escapes. -/
def interactionCreate (reg : Registry) (i : Interaction) : List Action :=
  let tr := tryBlock reg i
  if tr.threw then tr.actions ++ catchBlock i tr.replied tr.deferred
  else tr.actions

/-! ### The messageCreate legacy text path (both observed variants) -/

/-- A plain message event as the `messageCreate` handlers consume it.
Message contents are embedded as their character sequences (the contents
involved are ASCII, where JS UTF-16 code units and characters coincide).
`authorId` and `member` are carried so that independence from author
identity and voice state can be stated; the handlers only read `authorBot`,
`guild` presence and `content`. -/
structure MessageEvent where
  authorBot : Bool
  authorId : String
  guild : Option Guild
  content : List Char
  member : Option Member

/-- JS `String.prototype.startsWith`: the receiver begins with the given
characters. -/
def jsStartsWith : List Char → List Char → Bool
  | _, [] => true
  | [], _ :: _ => false
  | c :: s, p :: ps => c = p && jsStartsWith s ps

/-- JS `String.prototype.trim`: strip whitespace from both ends. -/
def jsTrim (s : List Char) : List Char :=
  ((s.dropWhile Char.isWhitespace).reverse.dropWhile Char.isWhitespace).reverse

/-- Observable steps taken by a `messageCreate` handler. -/
inductive MsgAction where
  | invokePlayExecute (query : List Char)
  | msgReply (text : String)
deriving DecidableEq

/-- Lines 128-144 after the query was extracted: look up the `play` command
and invoke its execute hook through the mock interaction whose
`options.getString` returns the query, or reply that the command is
missing. -/
def playDispatch (reg : Registry) (query : List Char) : List MsgAction :=
  match getEntry reg.commandsByName "play" with
  | some cmd =>
      if cmd.execute.isSome then [.invokePlayExecute query]
      else [.msgReply "Could not find the play command."]
  | none => [.msgReply "Could not find the play command."]

/-- The first `messageCreate` handler (lines 121-146). JS
`content.startsWith(prefixToken)` is `jsStartsWith content "?play".toList` and
`content.slice(6).trim()` is `jsTrim (content.drop 6)`. -/
def messageCreateHandler (reg : Registry) (m : MessageEvent) :
    List MsgAction :=
  if m.authorBot || m.guild.isNone then []
  else if jsStartsWith m.content "?play".toList then
    playDispatch reg (jsTrim (m.content.drop 6))
  else []

/-- The second `messageCreate` handler variant (lines 256-285): identical
except that the execute invocation is wrapped in a try/catch that replies
with a plain error message when the hook throws. The fault outcome of the
hook on the mock interaction is the field `legacyThrows` applied to the
query it exposes. -/
def messageCreateHandlerV2 (reg : Registry) (m : MessageEvent) :
    List MsgAction :=
  if m.authorBot || m.guild.isNone then []
  else if jsStartsWith m.content "?play".toList then
    let query := jsTrim (m.content.drop 6)
    match getEntry reg.commandsByName "play" with
    | some cmd =>
        if cmd.execute.isSome then
          if cmd.legacyThrows query then
            [.invokePlayExecute query,
             .msgReply "There was an error trying to execute that command."]
          else [.invokePlayExecute query]
        else [.msgReply "Could not find the play command."]
    | none => [.msgReply "Could not find the play command."]
  else []

/-! ### The ready handler registration synchronizer -/

/-- The environment the per-guild registration runs against: which guild
uploads would fail, and whether the application-wide clear would fail.
Modelled from the spec: `registerCommandsOnGuild` (from
`utils/register-commands-on-guild.js`, not in `src/`) is a per-scope upload
endpoint whose success is determined by the transport. -/
structure SyncEnv where
  uploadFails : String → Bool
  clearFails : Bool

/-- A reason a promise in the `Promise.all` fan-out rejects with. -/
inductive SyncError where
  | guildUploadError (guildId : String)
  | clearError
deriving DecidableEq

/-- The settled aggregate of the `Promise.all`. -/
inductive SyncResult where
  | ok
  | rejected (e : SyncError)
deriving DecidableEq

/-- The scopes whose uploads fail in the given environment — what the spec
calls the complete failed-scope list. -/
def failedScopes (guilds : List String) (env : SyncEnv) : List String :=
  guilds.filter (fun g => env.uploadFails g)

/-- Every promise in the fan-out runs regardless of the others, so a guild
upload completes iff its own call succeeds. -/
def completedUploads (guilds : List String) (env : SyncEnv) : List String :=
  guilds.filter (fun g => !(env.uploadFails g))

/-- Lines 164-175: `Promise.all([...per-guild uploads, clear])`. The
aggregate fulfils iff every constituent fulfils; otherwise it rejects with
the single reason of one rejected constituent. Settlement order across the
wire is not observable here; the first failing guild in list order (then
the clear) stands for that one reason — every refutation below only uses
that the reason is a single error, which holds for any settlement order. -/
def promiseAllSync (guilds : List String) (env : SyncEnv) : SyncResult :=
  match guilds.find? (fun g => env.uploadFails g) with
  | some g => .rejected (.guildUploadError g)
  | none => if env.clearFails then .rejected .clearError else .ok

/-- The scopes a settled result actually names. -/
def reportedScopes : SyncResult → List String
  | .rejected (.guildUploadError g) => [g]
  | _ => []

/-- The resolution of `requiresVC` that the spec describes: an evaluation
fault is treated as `true`, the conservative default. Stated only for
comparison with `resolveRequiresVC`, which embeds what the code does. -/
def resolveRequiresVCSpec (r : RequiresVC) (i : Interaction) : Bool :=
  match r with
  | .flag b => b
  | .dyn f =>
      match f i with
      | .ok b => b
      | .error _ => true

/-! ### Concrete fixtures, used by witnesses and counterexamples -/

/-- A gated `play` command whose execute hook succeeds. -/
def cmdGate : Command :=
  { name := "play", toJSONOk := true, requiresVC := .flag true,
    handledButtonIds := none,
    execute := some fun _ => ⟨false, false, false⟩,
    handleButtonInteraction := none, handleAutocompleteInteraction := none,
    legacyThrows := fun _ => false }

/-- A command whose `requiresVC` is a function that throws. -/
def cmdDynThrow : Command :=
  { name := "stop", toJSONOk := true,
    requiresVC := .dyn fun _ => .error (),
    handledButtonIds := none,
    execute := some fun _ => ⟨false, false, false⟩,
    handleButtonInteraction := none, handleAutocompleteInteraction := none,
    legacyThrows := fun _ => false }

/-- A serializable command named `alpha` with no hooks. -/
def cmdA : Command :=
  { name := "alpha", toJSONOk := true, requiresVC := .flag false,
    handledButtonIds := none, execute := none,
    handleButtonInteraction := none, handleAutocompleteInteraction := none,
    legacyThrows := fun _ => false }

/-- A command named `broken` whose definition payload fails to serialize. -/
def cmdBad : Command :=
  { name := "broken", toJSONOk := false, requiresVC := .flag false,
    handledButtonIds := none, execute := none,
    handleButtonInteraction := none, handleAutocompleteInteraction := none,
    legacyThrows := fun _ => false }

/-- First of two commands named `play` (for last-write-wins). -/
def cmdPlayA : Command :=
  { name := "play", toJSONOk := true, requiresVC := .flag true,
    handledButtonIds := none, execute := none,
    handleButtonInteraction := none, handleAutocompleteInteraction := none,
    legacyThrows := fun _ => false }

/-- Second of two commands named `play` (for last-write-wins). -/
def cmdPlayB : Command :=
  { name := "play", toJSONOk := true, requiresVC := .flag false,
    handledButtonIds := none,
    execute := some fun _ => ⟨false, false, false⟩,
    handleButtonInteraction := none, handleAutocompleteInteraction := none,
    legacyThrows := fun _ => false }

/-- Registry holding only `cmdGate` under `play`. -/
def regGate : Registry := ⟨[("play", cmdGate)], []⟩

/-- Registry holding only `cmdDynThrow` under `stop`. -/
def regDynThrow : Registry := ⟨[("stop", cmdDynThrow)], []⟩

/-- A structured `play` interaction in a guild with an empty voice presence,
from a non-exempt caller. -/
def iNonExempt : Interaction :=
  { isCommand := true, isChatInputCommand := true, isButton := false,
    isAutocomplete := false, commandName := "play", customId := "",
    guild := some ⟨[]⟩, member := some ⟨"u1"⟩,
    editReplyFails := false, replyFails := false }

/-- The same interaction, issued by the first hardcoded exempt user id. -/
def iExempt : Interaction :=
  { iNonExempt with member := some ⟨"1215330175563071509"⟩ }

/-- A structured `stop` interaction (hits `cmdDynThrow`) from a non-exempt
caller outside voice. -/
def iDynThrow : Interaction :=
  { iNonExempt with commandName := "stop" }

/-- A structured `stop` interaction without guild context (a DM). -/
def iDM : Interaction :=
  { iDynThrow with guild := none }

/-- A command interaction whose recovery calls succeed. -/
def iCatch : Interaction :=
  { iNonExempt with commandName := "play" }

/-- A command interaction whose recovery `editReply` would itself reject. -/
def iCatchFailing : Interaction :=
  { iCatch with editReplyFails := true }

/-- Environment in which both guild uploads fail. -/
def envBothFail : SyncEnv :=
  ⟨fun g => g == "G1" || g == "G2", false⟩

/-- Environment in which only the `G2` upload fails. -/
def envG2Fail : SyncEnv :=
  ⟨fun g => g == "G2", false⟩

/-- A non-bot `?play lofi beats` message in a guild, author not in voice and
not exempt. -/
def msgPlay : MessageEvent :=
  { authorBot := false, authorId := "u1", guild := some ⟨[]⟩,
    content := "?play lofi beats".toList, member := some ⟨"u1"⟩ }

/-- The same message but with content `?playlist something`. -/
def msgPlaylist : MessageEvent :=
  { msgPlay with content := "?playlist something".toList }

/-- The same `?play` message from an exempt author inside a voice channel. -/
def msgPlayInVoice : MessageEvent :=
  { msgPlay with
    authorId := "1215330175563071509",
    guild := some ⟨["1215330175563071509"]⟩,
    member := some ⟨"1215330175563071509"⟩ }

/-! ### Theorems -/

/-- The catch block settles on one of three shapes: nothing (recovery failed
or the kind is unroutable), an edit carrying the generic error, or a fresh
ephemeral reply carrying the generic error. -/
theorem catchBlock_cases (i : Interaction) (r d : Bool) :
    catchBlock i r d = [] ∨
    catchBlock i r d = [Action.editReply .genericError] ∨
    catchBlock i r d = [Action.reply .genericError true] := by
  unfold catchBlock attemptRecovery
  split_ifs <;> simp

/-- The catch block never emits the voice-channel rejection. -/
theorem catchBlock_no_vcRejection (i : Interaction) (r d : Bool) :
    Action.reply .vcRejection true ∉ catchBlock i r d := by
  rcases catchBlock_cases i r d with h | h | h <;> simp [h]

/-- The catch block never invokes the execute hook. -/
theorem catchBlock_no_invoke (i : Interaction) (r d : Bool) :
    Action.invokeExecute ∉ catchBlock i r d := by
  rcases catchBlock_cases i r d with h | h | h <;> simp [h]

/-- Shape of the command branch once lookup, kind, guild and gate resolution
are fixed: it is the gate decision followed by the invocation. -/
theorem tryCommandBranch_gate (reg : Registry) (i : Interaction)
    (cmd : Command) (g : Guild) (rvc : Bool)
    (hcc : i.isChatInputCommand = true)
    (hlook : getEntry reg.commandsByName i.commandName = some cmd)
    (hg : i.guild = some g)
    (hrv : resolveRequiresVC cmd.requiresVC i = .ok rvc) :
    tryCommandBranch reg i =
      if gateDenies g rvc i.member then
        ⟨[.reply .vcRejection true], false, true, false⟩
      else invokeExec cmd i := by
  unfold tryCommandBranch
  rw [hlook]
  simp [hcc, hg, hrv]

/-- C1: for a structured command interaction in a guild whose resolved voice
requirement is true, an exempt caller passes the voice gate regardless of
voice-channel membership and the execute hook is invoked when declared,
while a non-exempt caller absent from the voice channels of the guild receives
exactly one ephemeral voice-channel rejection reply and the execute hook is
never invoked. -/
theorem voice_gate_exemption_and_rejection (reg : Registry) (i : Interaction)
    (cmd : Command) (g : Guild) (m : Member)
    (hc : i.isCommand = true) (hcc : i.isChatInputCommand = true)
    (hlook : getEntry reg.commandsByName i.commandName = some cmd)
    (hg : i.guild = some g) (hm : i.member = some m)
    (hrv : resolveRequiresVC cmd.requiresVC i = .ok true) :
    (exemptUserIds.contains m.userId = true →
      Action.reply .vcRejection true ∉ interactionCreate reg i ∧
      (cmd.execute.isSome = true →
        Action.invokeExecute ∈ interactionCreate reg i)) ∧
    (exemptUserIds.contains m.userId = false →
      isUserInVoice g m.userId = false →
      interactionCreate reg i = [Action.reply .vcRejection true] ∧
      Action.invokeExecute ∉ interactionCreate reg i) := by
  have hbody : tryBlock reg i = tryCommandBranch reg i := by
    simp [tryBlock, hc]
  have hbr := tryCommandBranch_gate reg i cmd g true hcc hlook hg hrv
  constructor
  · intro hex
    have hgate : gateDenies g true i.member = false := by
      simp only [gateDenies, hm, hex]
      simp
    rw [hgate] at hbr
    simp only [Bool.false_eq_true, if_false] at hbr
    cases hcmd : cmd.execute with
    | none =>
        have : interactionCreate reg i = [] := by
          simp [interactionCreate, hbody, hbr, invokeExec, hcmd]
        simp [this, hcmd]
    | some f =>
        have hout : interactionCreate reg i =
            if (f i).throws then
              [Action.invokeExecute] ++
                catchBlock i (f i).replied (f i).deferred
            else [Action.invokeExecute] := by
          simp [interactionCreate, hbody, hbr, invokeExec, hcmd]
        constructor
        · rw [hout]
          split_ifs with ht
          · simp [catchBlock_no_vcRejection]
          · simp
        · intro _
          rw [hout]
          split_ifs with ht <;> simp
  · intro hex hvoice
    have hgate : gateDenies g true i.member = true := by
      simp only [gateDenies, hm, hex, hvoice]
      simp
    rw [hgate] at hbr
    simp only [if_pos rfl] at hbr
    have : interactionCreate reg i = [Action.reply .vcRejection true] := by
      simp [interactionCreate, hbody, hbr]
    simp [this]

/-- Witness for C1 at concrete inputs: the non-exempt caller outside voice
gets exactly the ephemeral rejection; the first hardcoded exempt id reaches
the execute hook while also outside voice. -/
theorem voice_gate_exemption_and_rejection_witness :
    (interactionCreate regGate iNonExempt =
        [Action.reply .vcRejection true] ∧
      Action.invokeExecute ∉ interactionCreate regGate iNonExempt) ∧
    Action.invokeExecute ∈ interactionCreate regGate iExempt :=
  ⟨(voice_gate_exemption_and_rejection regGate iNonExempt cmdGate ⟨[]⟩ ⟨"u1"⟩
      rfl rfl rfl rfl rfl rfl).2 (by decide) (by decide),
   ((voice_gate_exemption_and_rejection regGate iExempt cmdGate ⟨[]⟩
      ⟨"1215330175563071509"⟩ rfl rfl rfl rfl rfl rfl).1 (by decide)).2 rfl⟩

/-- C3: a structured command interaction that resolves to a registered
command but carries no guild context is answered with exactly the fixed
DM-rejection reply and no hook runs. The command — in particular its
`requiresVC`, which may even be a throwing function — is arbitrary, so the
guild check settles the event before the voice gate and before
invocation. -/
theorem dm_interaction_rejected (reg : Registry) (i : Interaction)
    (cmd : Command)
    (hc : i.isCommand = true) (hcc : i.isChatInputCommand = true)
    (hlook : getEntry reg.commandsByName i.commandName = some cmd)
    (hg : i.guild = none) :
    interactionCreate reg i = [Action.reply .dmRejection false] ∧
    Action.invokeExecute ∉ interactionCreate reg i := by
  have hbody : tryBlock reg i = tryCommandBranch reg i := by
    simp [tryBlock, hc]
  have hbr : tryCommandBranch reg i =
      ⟨[.reply .dmRejection false], false, true, false⟩ := by
    unfold tryCommandBranch
    rw [hlook]
    simp [hcc, hg]
  constructor <;> simp [interactionCreate, hbody, hbr]

/-- Witness for C3: a DM `stop` interaction against a registry whose `stop`
command even has a throwing `requiresVC` function still yields only the
DM rejection. -/
theorem dm_interaction_rejected_witness :
    interactionCreate regDynThrow iDM = [Action.reply .dmRejection false] ∧
    Action.invokeExecute ∉ interactionCreate regDynThrow iDM :=
  dm_interaction_rejected regDynThrow iDM cmdDynThrow rfl rfl rfl rfl

/-- C7, counterexample: a `requiresVC` function that throws makes the gate
evaluation itself raise — the fault is not treated as `true`. The concrete
non-exempt caller outside voice would receive the voice-channel rejection
if the requirement resolved to `true` (the resolution of the spec says so),
but the router instead lands in its catch block and sends the generic
error reply. -/
theorem requiresVC_fault_cex :
    resolveRequiresVC cmdDynThrow.requiresVC iDynThrow = .error () ∧
    resolveRequiresVCSpec cmdDynThrow.requiresVC iDynThrow = true ∧
    interactionCreate regDynThrow iDynThrow =
      [Action.reply .genericError true] ∧
    interactionCreate regDynThrow iDynThrow ≠
      [Action.reply .vcRejection true] :=
  ⟨rfl, rfl, by decide, by decide⟩

/-- C7, amended: when `requiresVC` is a function of the interaction, the
router evaluates it with the interaction, and a fault raised during that
evaluation propagates to the failure-containment catch block — the router
then replies with the generic error (when its reply call can be delivered)
and never invokes the execute hook; the fault is not resolved to `true`. -/
theorem requiresVC_fault_propagates (reg : Registry) (i : Interaction)
    (cmd : Command) (g : Guild) (f : Interaction → Except Unit Bool)
    (hc : i.isCommand = true) (hcc : i.isChatInputCommand = true)
    (hlook : getEntry reg.commandsByName i.commandName = some cmd)
    (hg : i.guild = some g)
    (hdyn : cmd.requiresVC = RequiresVC.dyn f)
    (hthrow : f i = .error ()) :
    interactionCreate reg i =
      (if i.replyFails then [] else [Action.reply .genericError true]) ∧
    Action.invokeExecute ∉ interactionCreate reg i := by
  have hbody : tryBlock reg i = tryCommandBranch reg i := by
    simp [tryBlock, hc]
  have hbr : tryCommandBranch reg i = ⟨[], true, false, false⟩ := by
    unfold tryCommandBranch
    rw [hlook]
    simp [hcc, hg, resolveRequiresVC, hdyn, hthrow]
  have hcatch : catchBlock i false false =
      if i.replyFails then [] else [Action.reply .genericError true] := by
    unfold catchBlock attemptRecovery
    simp [hc]
    split_ifs <;> simp
  constructor
  · simp [interactionCreate, hbody, hbr, hcatch]
  · simp [interactionCreate, hbody, hbr, hcatch]

/-- Witness for the amended C7 at the concrete throwing command. -/
theorem requiresVC_fault_propagates_witness :
    interactionCreate regDynThrow iDynThrow =
      (if iDynThrow.replyFails then []
       else [Action.reply .genericError true]) ∧
    Action.invokeExecute ∉ interactionCreate regDynThrow iDynThrow :=
  requiresVC_fault_propagates regDynThrow iDynThrow cmdDynThrow ⟨[]⟩
    (fun _ => .error ()) rfl rfl rfl rfl rfl rfl

/-- C4: when the routing of a command or button interaction faults, the
catch block edits the existing reply when the interaction was already
replied to or deferred (never sending a second fresh reply), sends a new
ephemeral generic error reply otherwise, returns without output when the
recovery attempt itself rejects (the secondary failure is swallowed by the
inner empty catch), and the handler output is always the try block output
followed by this total recovery — no reply failure escapes. -/
theorem catch_recovery (reg : Registry) (i : Interaction) (r d : Bool)
    (hk : (i.isCommand || i.isButton) = true) :
    ((r || d) = true →
      (∀ c e, Action.reply c e ∉ catchBlock i r d) ∧
      (i.editReplyFails = false →
        catchBlock i r d = [Action.editReply .genericError])) ∧
    ((r || d) = false →
      (∀ c, Action.editReply c ∉ catchBlock i r d) ∧
      (i.replyFails = false →
        catchBlock i r d = [Action.reply .genericError true])) ∧
    (attemptRecovery i r d = .error () → catchBlock i r d = []) ∧
    ((tryBlock reg i).threw = true →
      interactionCreate reg i =
        (tryBlock reg i).actions ++
          catchBlock i (tryBlock reg i).replied (tryBlock reg i).deferred) := by
  refine ⟨?_, ?_, ?_, ?_⟩
  · intro hrd
    unfold catchBlock attemptRecovery
    simp [hk, hrd]
    split_ifs with h <;> simp [h]
  · intro hrd
    unfold catchBlock attemptRecovery
    simp [hk, hrd]
    split_ifs with h <;> simp [h]
  · intro hfail
    unfold catchBlock
    rw [hfail]
  · intro hthrew
    simp [interactionCreate, hthrew]

/-- Witness for C4: with a successful edit path the catch block edits; with
a fresh interaction it replies ephemerally; when the edit itself rejects
the failure is swallowed and nothing is emitted. -/
theorem catch_recovery_witness :
    catchBlock iCatch true false = [Action.editReply .genericError] ∧
    catchBlock iCatch false false = [Action.reply .genericError true] ∧
    catchBlock iCatchFailing true false = [] :=
  ⟨((catch_recovery emptyRegistry iCatch true false rfl).1 rfl).2 rfl,
   ((catch_recovery emptyRegistry iCatch false false rfl).2.1 rfl).2 rfl,
   (catch_recovery emptyRegistry iCatchFailing true false rfl).2.2.1 rfl⟩

/-- C2, counterexample: loading serializable `alpha` followed by
unserializable `broken` throws the error naming `broken`, yet `alpha` is
still retained in the name index — the collections were mutated in place
before the failure, so the load is not all-or-nothing. -/
theorem load_not_all_or_nothing_cex :
    (loadCommands [cmdA, cmdBad] emptyRegistry).2 =
      some "Could not serialize /broken to JSON" ∧
    ((getEntry (loadCommands [cmdA, cmdBad] emptyRegistry).1.commandsByName
        "alpha").map Command.name) = some "alpha" := by
  constructor
  · show some ("Could not serialize /" ++ "broken" ++ " to JSON") = _
    rfl
  · rfl

/-- C2, amended: when a definition payload fails to serialize, the load
fails with the error naming the offending command, the failing definition
and all later ones are not added, but every definition loaded before the
failure remains in the registry: the state on error is exactly the state
after loading the preceding prefix. -/
theorem load_error_keeps_earlier (pre : List Command) (bad : Command)
    (post : List Command) (reg : Registry)
    (hpre : ∀ c ∈ pre, c.toJSONOk = true)
    (hbad : bad.toJSONOk = false) :
    loadCommands (pre ++ bad :: post) reg =
      ((loadCommands pre reg).1,
        some ("Could not serialize /" ++ bad.name ++ " to JSON")) := by
  induction pre generalizing reg with
  | nil => simp [loadCommands, hbad]
  | cons c rest ih =>
      have hc : c.toJSONOk = true := hpre c (by simp)
      have hrest : ∀ c₁ ∈ rest, c₁.toJSONOk = true := by
        intro c₁ hc₁
        exact hpre c₁ (by simp [hc₁])
      simp [loadCommands, hc, ih (loadStep reg c) hrest]

/-- Witness for the amended C2 at the concrete pair: the error names
`broken` and the state equals the state after loading just `alpha`. -/
theorem load_error_keeps_earlier_witness :
    loadCommands [cmdA, cmdBad] emptyRegistry =
      ((loadCommands [cmdA] emptyRegistry).1,
        some ("Could not serialize /" ++ cmdBad.name ++ " to JSON")) :=
  load_error_keeps_earlier [cmdA] cmdBad [] emptyRegistry
    (by
      intro c hc
      rw [List.mem_singleton] at hc
      rw [hc]
      rfl)
    rfl

/-- C6: after a fully successful load into the empty registry, every
nonempty name is mapped to the last definition in the load sequence
carrying that name — a later duplicate silently replaces an earlier one. -/
theorem name_index_last_write_wins (cmds : List Command) (n : String)
    (hn : n ≠ "") (h : (loadCommands cmds emptyRegistry).2 = none) :
    getEntry (loadCommands cmds emptyRegistry).1.commandsByName n =
      lastWithName cmds n := by
  rw [loadCommands_getEntry cmds emptyRegistry n hn h]
  cases lastWithName cmds n <;> simp [emptyRegistry, getEntry]

/-- Witness for C6: loading `cmdPlayA` then `cmdPlayB`, both named `play`,
makes the name index return the later `cmdPlayB`. -/
theorem name_index_last_write_wins_witness :
    getEntry
        (loadCommands [cmdPlayA, cmdPlayB] emptyRegistry).1.commandsByName
        "play" =
      lastWithName [cmdPlayA, cmdPlayB] "play" ∧
    lastWithName [cmdPlayA, cmdPlayB] "play" = some cmdPlayB :=
  ⟨name_index_last_write_wins [cmdPlayA, cmdPlayB] "play"
      (by decide) rfl,
   rfl⟩

/-- C5, counterexample: with guilds `G1` and `G2` both failing, the settled
result of the fan-out carries a single rejection reason naming one scope,
not the complete failed-scope list — the aggregate of `Promise.all` does
not report `[G1, G2]`. -/
theorem sync_single_reason_cex :
    failedScopes ["G1", "G2"] envBothFail = ["G1", "G2"] ∧
    promiseAllSync ["G1", "G2"] envBothFail =
      .rejected (.guildUploadError "G1") ∧
    reportedScopes (promiseAllSync ["G1", "G2"] envBothFail) ≠
      failedScopes ["G1", "G2"] envBothFail := by
  refine ⟨by decide, by decide, by decide⟩

/-- C5, amended: the per-scope uploads and the clear run as one fan-out that
succeeds exactly when every constituent succeeds; every scope whose own
upload succeeds completes regardless of other scopes failing; and a failed
aggregate carries a single failing scope (which did fail) rather than the
complete failed-scope list. -/
theorem sync_aggregate (guilds : List String) (env : SyncEnv) :
    (promiseAllSync guilds env = .ok ↔
      failedScopes guilds env = [] ∧ env.clearFails = false) ∧
    (∀ g ∈ guilds, env.uploadFails g = false →
      g ∈ completedUploads guilds env) ∧
    (∀ g, promiseAllSync guilds env = .rejected (.guildUploadError g) →
      g ∈ failedScopes guilds env ∧
      reportedScopes (promiseAllSync guilds env) = [g]) := by
  refine ⟨?_, ?_, ?_⟩
  · constructor
    · intro h
      cases hf : guilds.find? (fun g => env.uploadFails g) with
      | some g => simp [promiseAllSync, hf] at h
      | none =>
          rw [List.find?_eq_none] at hf
          constructor
          · rw [failedScopes, List.filter_eq_nil_iff]
            exact hf
          · by_contra hcf
            have hcf₁ : env.clearFails = true := by
              cases h₁ : env.clearFails
              · exact absurd h₁ hcf
              · rfl
            simp [promiseAllSync, List.find?_eq_none.mpr hf, hcf₁] at h
    · rintro ⟨h₁, h₂⟩
      rw [failedScopes, List.filter_eq_nil_iff] at h₁
      simp [promiseAllSync, List.find?_eq_none.mpr h₁, h₂]
  · intro g hg hok
    rw [completedUploads, List.mem_filter]
    exact ⟨hg, by simp [hok]⟩
  · intro g h
    cases hf : guilds.find? (fun g => env.uploadFails g) with
    | some g₁ =>
        have hg₁ : g₁ = g := by
          simp [promiseAllSync, hf] at h
          exact h
        subst hg₁
        refine ⟨?_, by simp [promiseAllSync, hf, reportedScopes]⟩
        rw [failedScopes, List.mem_filter]
        exact ⟨List.mem_of_find?_eq_some hf, List.find?_some hf⟩
    | none =>
        exfalso
        by_cases hcf : env.clearFails = true <;>
          simp [promiseAllSync, hf, hcf] at h

/-- Witness for the amended C5: with guilds `G1`, `G2` and only `G2`
failing, the aggregate rejects naming `G2`, `G2` is a failed scope, and
the upload of `G1` completed. -/
theorem sync_aggregate_witness :
    promiseAllSync ["G1", "G2"] envG2Fail =
      .rejected (.guildUploadError "G2") ∧
    "G2" ∈ failedScopes ["G1", "G2"] envG2Fail ∧
    "G1" ∈ completedUploads ["G1", "G2"] envG2Fail :=
  ⟨by decide,
   ((sync_aggregate ["G1", "G2"] envG2Fail).2.2 "G2" (by decide)).1,
   (sync_aggregate ["G1", "G2"] envG2Fail).2.1 "G1" (by decide) (by decide)⟩

/-- C8: a plain `?play lofi beats` message from a non-bot author in a guild
makes both messageCreate variants invoke the `play` execute hook through
the synthesized adapter whose string option resolves to `lofi beats`;
messages from bots or without guild context are ignored by both; and when
`play` is absent from the registry both send the plain
`Could not find the play command.` reply. -/
theorem legacy_play_message (reg : Registry) (m : MessageEvent) (g : Guild)
    (cmd : Command)
    (hb : m.authorBot = false) (hg : m.guild = some g)
    (hcontent : m.content = "?play lofi beats".toList)
    (hcmd : getEntry reg.commandsByName "play" = some cmd)
    (hex : cmd.execute.isSome = true) :
    messageCreateHandler reg m =
      [MsgAction.invokePlayExecute ("lofi beats".toList)] ∧
    MsgAction.invokePlayExecute ("lofi beats".toList) ∈
      messageCreateHandlerV2 reg m ∧
    (∀ (reg₁ : Registry) (m₁ : MessageEvent),
      m₁.authorBot = true ∨ m₁.guild = none →
      messageCreateHandler reg₁ m₁ = [] ∧
      messageCreateHandlerV2 reg₁ m₁ = []) ∧
    (∀ (reg₁ : Registry) (m₁ : MessageEvent),
      m₁.authorBot = false → m₁.guild.isSome = true →
      jsStartsWith m₁.content ("?play".toList) = true →
      getEntry reg₁.commandsByName "play" = none →
      messageCreateHandler reg₁ m₁ =
        [MsgAction.msgReply "Could not find the play command."] ∧
      messageCreateHandlerV2 reg₁ m₁ =
        [MsgAction.msgReply "Could not find the play command."]) := by
  have hstart : jsStartsWith ("?play lofi beats".toList) ("?play".toList) =
      true := by decide
  have htrim : jsTrim (("?play lofi beats".toList).drop 6) =
      "lofi beats".toList := by decide
  simp at hstart htrim
  refine ⟨?_, ?_, ?_, ?_⟩
  · unfold messageCreateHandler
    rw [hcontent]
    simp [hb, hg, hstart, htrim, playDispatch, hcmd, hex]
  · unfold messageCreateHandlerV2
    rw [hcontent]
    simp [hb, hg, hstart, htrim, hcmd, hex]
    split_ifs <;> simp [htrim]
  · intro reg₁ m₁ h
    rcases h with h | h <;>
      constructor <;>
        simp [messageCreateHandler, messageCreateHandlerV2, h]
  · intro reg₁ m₁ hb₁ hg₁ hstart₁ hnone
    have hn : m₁.guild.isNone = false := by
      cases h₁ : m₁.guild <;> simp_all
    simp at hstart₁
    constructor
    · simp [messageCreateHandler, hb₁, hn, hstart₁, playDispatch, hnone]
    · simp [messageCreateHandlerV2, hb₁, hn, hstart₁, hnone]

/-- Witness for C8 at the concrete message and registry, plus the two side
cases: a bot-authored copy is ignored and an empty registry draws the
not-found reply. -/
theorem legacy_play_message_witness :
    messageCreateHandler regGate msgPlay =
      [MsgAction.invokePlayExecute ("lofi beats".toList)] ∧
    MsgAction.invokePlayExecute ("lofi beats".toList) ∈
      messageCreateHandlerV2 regGate msgPlay ∧
    messageCreateHandler regGate { msgPlay with authorBot := true } = [] ∧
    messageCreateHandler emptyRegistry msgPlay =
      [MsgAction.msgReply "Could not find the play command."] := by
  have h := legacy_play_message regGate msgPlay ⟨[]⟩ cmdGate rfl rfl rfl rfl rfl
  exact ⟨h.1, h.2.1,
    (h.2.2.1 regGate { msgPlay with authorBot := true } (Or.inl rfl)).1,
    (h.2.2.2 emptyRegistry msgPlay rfl rfl (by decide) rfl).1⟩

/-- C9: both legacy text handlers are insensitive to author identity,
exemption status and voice-channel membership — two message events agreeing
on bot-ness, content and guild presence (but possibly differing in author
id, member and the voice occupants of the guild) produce identical behavior;
the voice gate is never consulted on this path. -/
theorem legacy_path_voice_independent (reg : Registry)
    (m₁ m₂ : MessageEvent)
    (hb : m₁.authorBot = m₂.authorBot)
    (hc : m₁.content = m₂.content)
    (hg : m₁.guild.isSome = m₂.guild.isSome) :
    messageCreateHandler reg m₁ = messageCreateHandler reg m₂ ∧
    messageCreateHandlerV2 reg m₁ = messageCreateHandlerV2 reg m₂ := by
  have hn : m₁.guild.isNone = m₂.guild.isNone := by
    cases h₁ : m₁.guild <;> cases h₂ : m₂.guild <;> simp_all
  constructor
  · unfold messageCreateHandler
    rw [hb, hc, hn]
  · unfold messageCreateHandlerV2
    rw [hb, hc, hn]

/-- Witness for C9: a `?play` message from a non-exempt author outside any
voice channel behaves exactly like the same message from an exempt author
inside one, and that common behavior is the execute-hook invocation. -/
theorem legacy_path_voice_independent_witness :
    (messageCreateHandler regGate msgPlay =
      messageCreateHandler regGate msgPlayInVoice ∧
    messageCreateHandlerV2 regGate msgPlay =
      messageCreateHandlerV2 regGate msgPlayInVoice) ∧
    messageCreateHandler regGate msgPlay =
      [MsgAction.invokePlayExecute ("lofi beats".toList)] :=
  ⟨legacy_path_voice_independent regGate msgPlay msgPlayInVoice rfl rfl rfl,
   by decide⟩

/-- C10: the legacy prefix check is not word-boundary-aware: any non-bot
guild message whose content merely starts with the characters `?play`
enters the play path with the query taken from index 6 onward and trimmed;
in particular `?playlist something` invokes `play` with the query
`ist something`. -/
theorem legacy_prefix_not_word_boundary (reg : Registry) (m : MessageEvent)
    (hb : m.authorBot = false) (hgs : m.guild.isSome = true)
    (hstart : jsStartsWith m.content ("?play".toList) = true) :
    messageCreateHandler reg m =
      playDispatch reg (jsTrim (m.content.drop 6)) ∧
    (m.content = "?playlist something".toList →
      jsTrim (m.content.drop 6) = "ist something".toList ∧
      ∀ cmd, getEntry reg.commandsByName "play" = some cmd →
        cmd.execute.isSome = true →
        messageCreateHandler reg m =
          [MsgAction.invokePlayExecute ("ist something".toList)]) := by
  have hn : m.guild.isNone = false := by
    cases h₁ : m.guild <;> simp_all
  have hstart₁ := hstart
  simp at hstart₁
  have hmain : messageCreateHandler reg m =
      playDispatch reg (jsTrim (m.content.drop 6)) := by
    simp [messageCreateHandler, hb, hn, hstart₁]
  refine ⟨hmain, ?_⟩
  intro hcontent
  have htrim : jsTrim (m.content.drop 6) = "ist something".toList := by
    rw [hcontent]
    decide
  refine ⟨htrim, ?_⟩
  intro cmd hcmd hex
  rw [hmain, htrim]
  simp [playDispatch, hcmd, hex]

/-- Witness for C10: `?playlist something` from a non-bot author in a guild
reaches the `play` execute hook with query `ist something`. -/
theorem legacy_prefix_not_word_boundary_witness :
    messageCreateHandler regGate msgPlaylist =
      [MsgAction.invokePlayExecute ("ist something".toList)] :=
  ((legacy_prefix_not_word_boundary regGate msgPlaylist rfl rfl
      (by decide)).2 rfl).2 cmdGate rfl rfl

end Muse
